import Mathlib

set_option maxRecDepth 100000

/-!
# A verification model of the TonieToolbox TAF container codec

The repository's codec package (`TonieToolbox.core.analysis` /
`TonieToolbox.core.file.taf` / `TonieToolbox.core.processing.infrastructure.
services.taf_analysis_service`) is exercised by the unit tests shipped with
the repository but the package sources themselves are not available here;
every operation below is therefore modelled from the specification of the
codec (spec.md §§3-8): the fixed 4096-byte header region with its 4-byte
big-endian length prefix, the Protocol-Buffers-wire-compatible `TonieHeader`
metadata, the OGG page reader, the audio stream analyzer, the validator
(`check_tonie_file`), the comparator (`compare_taf_files`) and the chapter
splitter (`split_to_opus_files`).

Bytes are modelled as natural numbers, byte strings as `List Nat`, and the
file system as a partial map from path strings to byte strings.  Fallible
operations return `Except TafError _`; operations the spec requires never to
raise are total functions.
-/

instance {e a : Type} [DecidableEq e] [DecidableEq a] :
    DecidableEq (Except e a) := fun x y =>
  match x, y with
  | .error u, .error v =>
    if h : u = v then .isTrue (by rw [h]) else .isFalse (by simp [h])
  | .ok u, .ok v =>
    if h : u = v then .isTrue (by rw [h]) else .isFalse (by simp [h])
  | .error _, .ok _ => .isFalse (by simp)
  | .ok _, .error _ => .isFalse (by simp)

/-- A byte string: each element is one byte (0-255). -/
abbrev Bytes := List Nat

/-- A file system: a partial map from paths to file contents.  `none` means
the path does not exist. -/
abbrev FS := String → Option Bytes

/-- Little-endian value of a whole byte list (first byte least significant). -/
def leVal : Bytes → Nat
  | [] => 0
  | b :: r => b + 256 * leVal r

/-- Modelled from the spec (§4.2, §6): the 4-byte big-endian unsigned length
prefix at offset 0.  Returns `none` when fewer than 4 bytes are present. -/
def beU32of (b : Bytes) : Option Nat :=
  match b with
  | b0 :: b1 :: b2 :: b3 :: _ => some (((b0 * 256 + b1) * 256 + b2) * 256 + b3)
  | _ => none

/-- Little-endian byte encoding of `n` in exactly `k` bytes. -/
def leBytes : Nat → Nat → Bytes
  | 0, _ => []
  | k + 1, n => n % 256 :: leBytes k (n / 256)

/-! ## Protocol-Buffers wire encoding (varints) used by the header metadata -/

/-- Base-128 varint encoding (least-significant group first, high bit set on
every byte except the last), as used by the Protocol Buffers wire format the
spec requires the header metadata to be compatible with (§4.2). -/
def encodeVarint (n : Nat) : Bytes :=
  if h : n < 128 then [n]
  else (n % 128 + 128) :: encodeVarint (n / 128)
termination_by n
decreasing_by
  exact Nat.div_lt_self (by omega) (by omega)

/-- Base-128 varint decoding; returns the decoded value and the remaining
bytes, or `none` if the bytes end before a terminating byte (< 128). -/
def decodeVarint : Bytes → Option (Nat × Bytes)
  | [] => none
  | b :: r =>
    if b < 128 then some (b, r)
    else
      match decodeVarint r with
      | none => none
      | some (m, rest) => some ((b - 128) + 128 * m, rest)

theorem encodeVarint_ne_nil (n : Nat) : encodeVarint n ≠ [] := by
  rw [encodeVarint]
  split <;> simp

/-- Decoding an encoded varint consumes exactly the encoding and returns the
original value. -/
theorem decodeVarint_encodeVarint (n : Nat) (rest : Bytes) :
    decodeVarint (encodeVarint n ++ rest) = some (n, rest) := by
  induction n using Nat.strong_induction_on with
  | _ n ih =>
    rw [encodeVarint]
    split
    · simp [decodeVarint, *]
    · rename_i h
      have hdiv : n / 128 < n := Nat.div_lt_self (by omega) (by omega)
      simp only [List.cons_append, decodeVarint]
      have : ¬ (n % 128 + 128 < 128) := by omega
      simp only [this, if_false, List.append_eq, ih (n / 128) hdiv]
      have harith : n % 128 + 128 - 128 + 128 * (n / 128) = n := by omega
      rw [harith]

/-- A successful varint decode strictly consumes input. -/
theorem decodeVarint_length (b : Bytes) : ∀ v rest, decodeVarint b = some (v, rest) →
    rest.length < b.length := by
  induction b with
  | nil => intro v rest h; simp [decodeVarint] at h
  | cons x xs ih =>
    intro v rest h
    by_cases hx : x < 128
    · simp [decodeVarint, hx] at h
      obtain ⟨h1, h2⟩ := h
      subst h2
      simp
    · simp only [decodeVarint, hx, if_false] at h
      cases hd : decodeVarint xs with
      | none => rw [hd] at h; cases h
      | some p =>
        obtain ⟨m, r⟩ := p
        rw [hd] at h
        simp only [Option.some.injEq, Prod.mk.injEq] at h
        obtain ⟨h1, h2⟩ := h
        subst h2
        have := ih m r hd
        simp only [List.length_cons]
        omega

/-! ## TonieHeader: the structured metadata of the header region (spec §3, §4.2)

Modelled from the spec: the `TonieHeader` entity carries `dataLength`
(declared audio byte count), `timestamp`, `chapterPages` (ordered page
indices) and `audioSha1` (20-byte digest).  The wire encoding is the
Protocol Buffers format required by §4.2; the spec fixes the encoding
discipline but not the field numbers, which are chosen here as 1-4 in the
order the spec lists the fields (`dataLength` 1 and `timestamp` 2 as
varints, `chapterPages` 3 packed, `audioSha1` 4 length-delimited). -/

structure TonieHeader where
  dataLength : Nat := 0
  timestamp : Nat := 0
  chapterPages : List Nat := []
  audioSha1 : Bytes := []
deriving Repr, DecidableEq

/-- Packed encoding of a repeated varint field: the concatenation of the
varint encodings of the elements. -/
def packedVarints (xs : List Nat) : Bytes :=
  xs.foldr (fun x acc => encodeVarint x ++ acc) []

/-- Modelled from the spec (§4.2): serialisation of a `TonieHeader` to the
Protocol Buffers wire format.  Fields holding their schema default (0 for
scalars, empty for the repeated/bytes fields) are omitted, as the proto3
wire format prescribes. -/
def serializeTonieHeader (h : TonieHeader) : Bytes :=
  (if h.dataLength = 0 then [] else 0x08 :: encodeVarint h.dataLength) ++
  (if h.timestamp = 0 then [] else 0x10 :: encodeVarint h.timestamp) ++
  (if h.chapterPages = [] then []
   else 0x1A :: encodeVarint (packedVarints h.chapterPages).length ++
        packedVarints h.chapterPages) ++
  (if h.audioSha1 = [] then []
   else 0x22 :: encodeVarint h.audioSha1.length ++ h.audioSha1)

/-- Decode a packed repeated-varint field occupying the whole byte string. -/
def parsePacked (b : Bytes) : Option (List Nat) :=
  if hb : b = [] then some []
  else
    match hd : decodeVarint b with
    | none => none
    | some (v, rest) => (parsePacked rest).map (fun vs => v :: vs)
termination_by b.length
decreasing_by
  exact decodeVarint_length b _ _ hd

theorem parsePacked_packedVarints (xs : List Nat) :
    parsePacked (packedVarints xs) = some xs := by
  induction xs with
  | nil => rw [parsePacked]; simp [packedVarints]
  | cons x xs ih =>
    have hne : packedVarints (x :: xs) ≠ [] := by
      simp only [packedVarints, List.foldr]
      intro hcon
      exact encodeVarint_ne_nil x (List.append_eq_nil.mp hcon).1
    rw [parsePacked]
    simp only [hne, dite_false]
    have hstep : decodeVarint (packedVarints (x :: xs)) =
        some (x, packedVarints xs) := by
      simp only [packedVarints, List.foldr]
      exact decodeVarint_encodeVarint x _
    split
    · rename_i heq
      rw [hstep] at heq
      cases heq
    · rename_i v rest heq
      rw [hstep] at heq
      simp only [Option.some.injEq, Prod.mk.injEq] at heq
      obtain ⟨h1, h2⟩ := heq
      subst h1
      subst h2
      rw [ih]
      rfl

/-- Modelled from the spec (§4.2): decode one wire-format field, returning
the update it applies to a header under construction and the remaining
bytes.  Unknown field numbers are tolerated and skipped (forward
compatibility, §4.2). -/
def parseField (b : Bytes) : Option ((TonieHeader → TonieHeader) × Bytes) :=
  match decodeVarint b with
  | none => none
  | some (tag, rest) =>
    let wt := tag % 8
    let fn := tag / 8
    if wt = 0 then
      match decodeVarint rest with
      | none => none
      | some (v, rest2) =>
        some ((fun h => if fn = 1 then { h with dataLength := v }
               else if fn = 2 then { h with timestamp := v } else h), rest2)
    else if wt = 2 then
      match decodeVarint rest with
      | none => none
      | some (len, rest2) =>
        if len ≤ rest2.length then
          if fn = 3 then
            match parsePacked (rest2.take len) with
            | none => none
            | some vs =>
              some ((fun h => { h with chapterPages := h.chapterPages ++ vs }),
                    rest2.drop len)
          else if fn = 4 then
            some ((fun h => { h with audioSha1 := rest2.take len }),
                  rest2.drop len)
          else some (id, rest2.drop len)
        else none
    else if wt = 1 then
      if 8 ≤ rest.length then some (id, rest.drop 8) else none
    else if wt = 5 then
      if 4 ≤ rest.length then some (id, rest.drop 4) else none
    else none

/-- A successful field parse strictly consumes input. -/
theorem parseField_length (b : Bytes) (upd : TonieHeader → TonieHeader)
    (rest : Bytes) (h : parseField b = some (upd, rest)) :
    rest.length < b.length := by
  unfold parseField at h
  cases htag : decodeVarint b with
  | none => rw [htag] at h; cases h
  | some p =>
    obtain ⟨tag, r1⟩ := p
    rw [htag] at h
    have hr1 : r1.length < b.length := decodeVarint_length b _ _ htag
    simp only at h
    split at h
    · -- varint field (wire type 0)
      cases hv : decodeVarint r1 with
      | none => rw [hv] at h; cases h
      | some q =>
        obtain ⟨v, r2⟩ := q
        rw [hv] at h
        simp only [Option.some.injEq, Prod.mk.injEq] at h
        obtain ⟨-, h2⟩ := h
        subst h2
        have hr2 := decodeVarint_length r1 _ _ hv
        omega
    · split at h
      · -- length-delimited field (wire type 2)
        cases hv : decodeVarint r1 with
        | none => rw [hv] at h; cases h
        | some q =>
          obtain ⟨len, r2⟩ := q
          rw [hv] at h
          have hr2 := decodeVarint_length r1 _ _ hv
          simp only at h
          split at h
          · split at h
            · -- chapterPages (packed)
              split at h
              · cases h
              · simp only [Option.some.injEq, Prod.mk.injEq] at h
                obtain ⟨-, h2⟩ := h
                subst h2
                simp only [List.length_drop]
                omega
            · split at h
              · -- audioSha1
                simp only [Option.some.injEq, Prod.mk.injEq] at h
                obtain ⟨-, h2⟩ := h
                subst h2
                simp only [List.length_drop]
                omega
              · -- unknown length-delimited field: skipped
                simp only [Option.some.injEq, Prod.mk.injEq] at h
                obtain ⟨-, h2⟩ := h
                subst h2
                simp only [List.length_drop]
                omega
          · cases h
      · split at h
        · -- 64-bit field: skipped
          split at h
          · simp only [Option.some.injEq, Prod.mk.injEq] at h
            obtain ⟨-, h2⟩ := h
            subst h2
            simp only [List.length_drop]
            omega
          · cases h
        · split at h
          · -- 32-bit field: skipped
            split at h
            · simp only [Option.some.injEq, Prod.mk.injEq] at h
              obtain ⟨-, h2⟩ := h
              subst h2
              simp only [List.length_drop]
              omega
            · cases h
          · cases h

/-- Modelled from the spec (§4.2, §6): decode the header metadata region.
Fields are decoded in sequence into a header under construction; a zero
byte in tag position marks the start of the zero padding that §6 says fills
the rest of the 4092-byte metadata region and ends the message ("zero-padded
to fill 4092 bytes"); a malformed field is a decode failure. -/
def parseFields (b : Bytes) (h : TonieHeader) : Option TonieHeader :=
  if b = [] then some h
  else if b.head? = some 0 then some h
  else
    match hf : parseField b with
    | none => none
    | some (upd, rest) => parseFields rest (upd h)
termination_by b.length
decreasing_by
  exact parseField_length b _ _ hf

/-- Decode a `TonieHeader` from metadata bytes, starting from the schema
defaults (spec §4.2: unspecified fields keep their schema default). -/
def parseTonieHeader (b : Bytes) : Option TonieHeader :=
  parseFields b {}

/-- Consuming one well-formed field chunk steps `parseFields`. -/
theorem parseFields_step (chunk : Bytes) (rest : Bytes) (h0 : TonieHeader)
    (upd : TonieHeader → TonieHeader) (hne : chunk ≠ [])
    (hhd : chunk.head? ≠ some 0)
    (hf : parseField (chunk ++ rest) = some (upd, rest)) :
    parseFields (chunk ++ rest) h0 = parseFields rest (upd h0) := by
  rw [parseFields]
  have h1 : ¬ (chunk ++ rest = []) := by
    simp [List.append_eq_nil]
    intro hcon
    exact absurd hcon hne
  have h2 : ¬ ((chunk ++ rest).head? = some 0) := by
    cases chunk with
    | nil => exact absurd rfl hne
    | cons c cs => simpa using hhd
  rw [if_neg h1, if_neg h2]
  split
  · rename_i heq
    rw [hf] at heq
    cases heq
  · rename_i u r heq
    rw [hf] at heq
    simp only [Option.some.injEq, Prod.mk.injEq] at heq
    obtain ⟨hu, hr⟩ := heq
    rw [hu, hr]

theorem parseField_dataLength (v : Nat) (rest : Bytes) :
    parseField (0x08 :: (encodeVarint v ++ rest)) =
      some ((fun h => { h with dataLength := v }), rest) := by
  unfold parseField
  have h8 : decodeVarint (0x08 :: (encodeVarint v ++ rest)) =
      some (8, encodeVarint v ++ rest) := by
    simp [decodeVarint]
  rw [h8]
  simp only [decodeVarint_encodeVarint]
  norm_num

theorem parseField_timestamp (v : Nat) (rest : Bytes) :
    parseField (0x10 :: (encodeVarint v ++ rest)) =
      some ((fun h => { h with timestamp := v }), rest) := by
  unfold parseField
  have h16 : decodeVarint (0x10 :: (encodeVarint v ++ rest)) =
      some (16, encodeVarint v ++ rest) := by
    simp [decodeVarint]
  rw [h16]
  simp only [decodeVarint_encodeVarint]
  norm_num

theorem parseField_chapterPages (cp : List Nat) (rest : Bytes) :
    parseField (0x1A :: (encodeVarint (packedVarints cp).length ++
        (packedVarints cp ++ rest))) =
      some ((fun h => { h with chapterPages := h.chapterPages ++ cp }), rest) := by
  unfold parseField
  have h26 : decodeVarint (0x1A :: (encodeVarint (packedVarints cp).length ++
      (packedVarints cp ++ rest))) =
      some (26, encodeVarint (packedVarints cp).length ++
        (packedVarints cp ++ rest)) := by
    simp [decodeVarint]
  rw [h26]
  simp only [decodeVarint_encodeVarint]
  norm_num
  rw [parsePacked_packedVarints]

theorem parseField_audioSha1 (sha : Bytes) (rest : Bytes) :
    parseField (0x22 :: (encodeVarint sha.length ++ (sha ++ rest))) =
      some ((fun h => { h with audioSha1 := sha }), rest) := by
  unfold parseField
  have h34 : decodeVarint (0x22 :: (encodeVarint sha.length ++ (sha ++ rest))) =
      some (34, encodeVarint sha.length ++ (sha ++ rest)) := by
    simp [decodeVarint]
  rw [h34]
  simp only [decodeVarint_encodeVarint]
  norm_num

theorem parseFields_run_dataLength (v : Nat) (rest : Bytes) (h0 : TonieHeader) :
    parseFields ((if v = 0 then [] else 0x08 :: encodeVarint v) ++ rest) h0 =
      parseFields rest (if v = 0 then h0 else { h0 with dataLength := v }) := by
  by_cases hv : v = 0
  · simp [hv]
  · rw [if_neg hv, if_neg hv]
    rw [List.cons_append]
    rw [show (0x08 : Nat) :: (encodeVarint v ++ rest) =
        (0x08 :: encodeVarint v) ++ rest from rfl]
    exact parseFields_step (0x08 :: encodeVarint v) rest h0 _ (by simp)
      (by simp)
      (by rw [List.cons_append]; exact parseField_dataLength v rest)

theorem parseFields_run_timestamp (v : Nat) (rest : Bytes) (h0 : TonieHeader) :
    parseFields ((if v = 0 then [] else 0x10 :: encodeVarint v) ++ rest) h0 =
      parseFields rest (if v = 0 then h0 else { h0 with timestamp := v }) := by
  by_cases hv : v = 0
  · simp [hv]
  · rw [if_neg hv, if_neg hv]
    rw [List.cons_append]
    rw [show (0x10 : Nat) :: (encodeVarint v ++ rest) =
        (0x10 :: encodeVarint v) ++ rest from rfl]
    exact parseFields_step (0x10 :: encodeVarint v) rest h0 _ (by simp)
      (by simp)
      (by rw [List.cons_append]; exact parseField_timestamp v rest)

theorem parseFields_run_chapterPages (cp : List Nat) (rest : Bytes)
    (h0 : TonieHeader) :
    parseFields ((if cp = [] then []
        else 0x1A :: encodeVarint (packedVarints cp).length ++
          packedVarints cp) ++ rest) h0 =
      parseFields rest (if cp = [] then h0
        else { h0 with chapterPages := h0.chapterPages ++ cp }) := by
  by_cases hcp : cp = []
  · simp [hcp]
  · rw [if_neg hcp, if_neg hcp]
    have hassoc : (0x1A :: encodeVarint (packedVarints cp).length ++
          packedVarints cp) ++ rest =
        (0x1A :: (encodeVarint (packedVarints cp).length ++
          (packedVarints cp ++ rest))) := by
      simp [List.append_assoc]
    rw [hassoc]
    rw [show (0x1A : Nat) :: (encodeVarint (packedVarints cp).length ++
          (packedVarints cp ++ rest)) =
        (0x1A :: (encodeVarint (packedVarints cp).length ++ packedVarints cp))
          ++ rest by simp]
    exact parseFields_step
      (0x1A :: (encodeVarint (packedVarints cp).length ++ packedVarints cp))
      rest h0 _ (by simp) (by simp)
      (by rw [List.cons_append, List.append_assoc]
          exact parseField_chapterPages cp rest)

theorem parseFields_run_audioSha1 (sha : Bytes) (rest : Bytes)
    (h0 : TonieHeader) :
    parseFields ((if sha = [] then []
        else 0x22 :: encodeVarint sha.length ++ sha) ++ rest) h0 =
      parseFields rest (if sha = [] then h0
        else { h0 with audioSha1 := sha }) := by
  by_cases hsha : sha = []
  · simp [hsha]
  · rw [if_neg hsha, if_neg hsha]
    rw [show (0x22 :: encodeVarint sha.length ++ sha) ++ rest =
        (0x22 :: (encodeVarint sha.length ++ sha)) ++ rest by simp]
    exact parseFields_step
      (0x22 :: (encodeVarint sha.length ++ sha)) rest h0 _ (by simp)
      (by simp)
      (by rw [List.cons_append, List.append_assoc]
          exact parseField_audioSha1 sha rest)

theorem set_dataLength_of_default (h0 : TonieHeader) (v : Nat)
    (hd : h0.dataLength = 0) :
    (if v = 0 then h0 else { h0 with dataLength := v }) =
      { h0 with dataLength := v } := by
  by_cases hv : v = 0
  · subst hv
    rw [if_pos rfl]
    cases h0
    simp_all
  · rw [if_neg hv]

theorem set_timestamp_of_default (h0 : TonieHeader) (v : Nat)
    (hd : h0.timestamp = 0) :
    (if v = 0 then h0 else { h0 with timestamp := v }) =
      { h0 with timestamp := v } := by
  by_cases hv : v = 0
  · subst hv
    rw [if_pos rfl]
    cases h0
    simp_all
  · rw [if_neg hv]

theorem set_chapterPages_of_default (h0 : TonieHeader) (cp : List Nat)
    (hd : h0.chapterPages = []) :
    (if cp = [] then h0 else { h0 with chapterPages := h0.chapterPages ++ cp }) =
      { h0 with chapterPages := cp } := by
  by_cases hcp : cp = []
  · subst hcp
    rw [if_pos rfl]
    cases h0
    simp_all
  · rw [if_neg hcp, hd]
    simp

theorem set_audioSha1_of_default (h0 : TonieHeader) (sha : Bytes)
    (hd : h0.audioSha1 = []) :
    (if sha = [] then h0 else { h0 with audioSha1 := sha }) =
      { h0 with audioSha1 := sha } := by
  by_cases hsha : sha = []
  · subst hsha
    rw [if_pos rfl]
    cases h0
    simp_all
  · rw [if_neg hsha]

/-- Parsing a serialised `TonieHeader` followed by trailing bytes that are
either absent or begin with the zero padding byte recovers the header field
for field (the zero tag position marks the padding that fills the header
region, spec §6). -/
theorem parseTonieHeader_serialize_append (h : TonieHeader) (rest : Bytes)
    (hrest : rest = [] ∨ rest.head? = some 0) :
    parseTonieHeader (serializeTonieHeader h ++ rest) = some h := by
  obtain ⟨dl, ts, cp, sha⟩ := h
  unfold parseTonieHeader serializeTonieHeader
  simp only [List.append_assoc]
  rw [parseFields_run_dataLength]
  rw [set_dataLength_of_default _ _ rfl]
  rw [parseFields_run_timestamp]
  rw [set_timestamp_of_default _ _ rfl]
  rw [parseFields_run_chapterPages]
  rw [set_chapterPages_of_default _ _ rfl]
  rw [parseFields_run_audioSha1]
  rw [set_audioSha1_of_default _ _ rfl]
  rcases hrest with hr | hr
  · subst hr
    rw [parseFields]
    simp
  · rw [parseFields]
    have hne : ¬ rest = [] := by
      intro hc
      subst hc
      simp at hr
    rw [if_neg hne, if_pos hr]

/-- Parsing back a serialised `TonieHeader` recovers it field for field;
fields that were never set come back as their schema defaults because the
parse starts from the default header. -/
theorem parseTonieHeader_serializeTonieHeader (h : TonieHeader) :
    parseTonieHeader (serializeTonieHeader h) = some h := by
  have := parseTonieHeader_serialize_append h [] (Or.inl rfl)
  simpa using this

/-! ## Error taxonomy (spec §7) -/

/-- Modelled from the spec (§7): the typed errors the codec raises.
`IncompleteReadError` never escapes the page reader (it only marks "no more
pages", §4.1), so the errors surfaced to callers are the header-stage and
audio-stage decode errors. -/
inductive TafError where
  | headerDecodeError (msg : String)
  | streamFormatError (msg : String)
deriving Repr, DecidableEq

/-- Whether an error is a header-stage decode error. -/
def TafError.isHeaderDecode : TafError → Bool
  | .headerDecodeError _ => true
  | .streamFormatError _ => false

/-! ## HeaderCodec (spec §4.2, §6) -/

/-- The fixed byte offset at which the audio region begins (spec §3:
`audioRegionOffset` is the constant 4096). -/
def audioRegionOffset : Nat := 4096

/-- Modelled from the spec (§4.2): read the header region.  The first 4
bytes are a big-endian unsigned 32-bit length prefix for the structured
metadata that follows; a prefix pointing past the end of the file or
malformed metadata raises a `HeaderDecodeError`. -/
def readHeader (b : Bytes) : Except TafError (Nat × TonieHeader) :=
  match beU32of b with
  | none => .error (.headerDecodeError
      "file too small to hold the 4-byte header length prefix")
  | some n =>
    if b.length < 4 + n then
      .error (.headerDecodeError "header length prefix points past end of file")
    else
      match parseTonieHeader ((b.drop 4).take n) with
      | none => .error (.headerDecodeError "malformed header metadata encoding")
      | some h => .ok (n, h)

/-- Modelled from the spec (§4.2, §6): write a header region.  The declared
length is always 4092 so that the audio region starts at byte 4096; the
encoded metadata is zero-padded to fill the 4092 bytes. -/
def writeHeaderBytes (h : TonieHeader) : Bytes :=
  [0x00, 0x00, 0x0F, 0xFC] ++
  (serializeTonieHeader h ++
   List.replicate (4092 - (serializeTonieHeader h).length) 0)

/-- Modelled from the spec (§6): a whole TAF file as produced by a
conforming writer: the fixed 4096-byte header region followed by the OGG
page stream. -/
def writeTafFile (h : TonieHeader) (audio : Bytes) : Bytes :=
  writeHeaderBytes h ++ audio

/-! ## OggPageReader (spec §4.1, §6) -/

/-- One physical OGG page (spec §3).  `granulePosition` is the 8-byte
little-endian field read as an unsigned value. -/
structure OggPage where
  version : Nat
  headerType : Nat
  granulePosition : Nat
  streamSerial : Nat
  pageSequenceNumber : Nat
  checksum : Nat
  segmentTable : List Nat
  payload : Bytes
deriving Repr, DecidableEq

/-- The 4-byte OGG capture pattern, the ASCII bytes of `"OggS"` (spec §3). -/
def capturePattern : Bytes := [0x4F, 0x67, 0x67, 0x53]

/-- The byte size of a page: 27-byte header plus segment table plus payload
(spec §4.5 "computed page byte size"). -/
def OggPage.pageSize (p : OggPage) : Nat :=
  27 + p.segmentTable.length + p.payload.length

/-- Modelled from the spec (§4.1, §6): parse one OGG page.  Reads the fixed
27-byte page header, validates the capture pattern, reads the segment table,
sums it to get the payload length and reads the payload.  An invalid capture
pattern or a truncated header/payload yields `none` ("no further pages"). -/
def parsePage (b : Bytes) : Option (OggPage × Bytes) :=
  if b.take 4 = capturePattern ∧ 27 ≤ b.length then
    let nseg := b.getD 26 0
    let rest := b.drop 27
    if nseg ≤ rest.length then
      let table := rest.take nseg
      let paylen := table.sum
      let rest2 := rest.drop nseg
      if paylen ≤ rest2.length then
        some ({ version := b.getD 4 0
                headerType := b.getD 5 0
                granulePosition := leVal ((b.drop 6).take 8)
                streamSerial := leVal ((b.drop 14).take 4)
                pageSequenceNumber := leVal ((b.drop 18).take 4)
                checksum := leVal ((b.drop 22).take 4)
                segmentTable := table
                payload := rest2.take paylen }, rest2.drop paylen)
      else none
    else none
  else none

/-- A parsable page begins with the capture pattern. -/
theorem parsePage_capture (b : Bytes) (p : OggPage) (rest : Bytes)
    (h : parsePage b = some (p, rest)) : b.take 4 = capturePattern := by
  unfold parsePage at h
  split at h
  · rename_i hc
    exact hc.1
  · cases h

/-- A successful page parse strictly consumes input (at least the 27-byte
page header). -/
theorem parsePage_length (b : Bytes) (p : OggPage) (rest : Bytes)
    (h : parsePage b = some (p, rest)) : rest.length < b.length := by
  unfold parsePage at h
  split at h
  · rename_i hc
    simp only at h
    split at h
    · split at h
      · simp only [Option.some.injEq, Prod.mk.injEq] at h
        obtain ⟨-, h2⟩ := h
        subst h2
        simp only [List.length_drop, List.length_take]
        omega
      · cases h
    · cases h
  · cases h

/-- Parse up to `fuel` pages.  Since every page occupies at least 27 bytes,
a fuel of `b.length + 1` never runs out before the stream does. -/
def parsePagesFuel : Nat → Bytes → List OggPage
  | 0, _ => []
  | fuel + 1, b =>
    match parsePage b with
    | none => []
    | some (p, rest) => p :: parsePagesFuel fuel rest

/-- Modelled from the spec (§4.1): the lazy forward-only page sequence:
parse pages until end-of-stream or the first unparsable byte. -/
def parsePages (b : Bytes) : List OggPage :=
  parsePagesFuel (b.length + 1) b

theorem parsePages_eq_nil_iff (b : Bytes) :
    parsePages b = [] ↔ parsePage b = none := by
  unfold parsePages parsePagesFuel
  cases hp : parsePage b with
  | none => simp
  | some q => obtain ⟨p, rest⟩ := q; simp

/-! ## AudioStreamAnalyzer (spec §4.3) -/

/-- Derived, read-only facts about the embedded audio stream (spec §3). -/
structure AudioStreamInfo where
  opusVersion : Nat
  channelCount : Nat
  sampleRate : Nat
  streamSerial : Nat
  commentsVendor : Bytes
  comments : List Bytes
deriving Repr, DecidableEq

/-- The ASCII bytes of the `"OpusHead"` stream-identification magic. -/
def opusHeadMagic : Bytes := [0x4F, 0x70, 0x75, 0x73, 0x48, 0x65, 0x61, 0x64]

/-- The ASCII bytes of the `"OpusTags"` comments magic. -/
def opusTagsMagic : Bytes := [0x4F, 0x70, 0x75, 0x73, 0x54, 0x61, 0x67, 0x73]

/-- Modelled from the spec (§4.3): decode the stream-identification packet
exposing `opusVersion`, `channelCount` and `sampleRate`.  The packet is the
8-byte magic, a version byte, a channel-count byte, a 2-byte pre-skip, and
the 4-byte little-endian input sample rate (19 bytes in total with the
output gain and mapping family). -/
def parseOpusHead (p : Bytes) : Option (Nat × Nat × Nat) :=
  if p.take 8 = opusHeadMagic ∧ 19 ≤ p.length then
    some (p.getD 8 0, p.getD 9 0, leVal ((p.drop 12).take 4))
  else none

/-- Decode `count` length-prefixed (4-byte little-endian) strings. -/
def parseLenStrings : Nat → Bytes → Option (List Bytes × Bytes)
  | 0, b => some ([], b)
  | k + 1, b =>
    if 4 ≤ b.length then
      let len := leVal (b.take 4)
      let rest := b.drop 4
      if len ≤ rest.length then
        match parseLenStrings k (rest.drop len) with
        | none => none
        | some (ss, r) => some (rest.take len :: ss, r)
      else none
    else none

/-- Modelled from the spec (§4.3): decode the comments packet: the 8-byte
`"OpusTags"` magic, a length-prefixed vendor string, and a count of
length-prefixed comment entries. -/
def parseComments (b : Bytes) : Option (Bytes × List Bytes) :=
  if b.take 8 = opusTagsMagic then
    let r1 := b.drop 8
    if 4 ≤ r1.length then
      let vlen := leVal (r1.take 4)
      let r2 := r1.drop 4
      if vlen ≤ r2.length then
        let r3 := r2.drop vlen
        if 4 ≤ r3.length then
          match parseLenStrings (leVal (r3.take 4)) (r3.drop 4) with
          | none => none
          | some (ss, _) => some (r2.take vlen, ss)
        else none
      else none
    else none
  else none

/-- Modelled from the spec (§4.3): analyze the audio region.  Reads exactly
the first two pages; the first payload must decode as a
stream-identification packet, the second as a comments packet; any failure
is a `StreamFormatError`. -/
def analyzeAudio (audio : Bytes) : Except TafError AudioStreamInfo :=
  match parsePage audio with
  | none => .error (.streamFormatError
      "audio region does not start with a valid OGG page")
  | some (p1, rest) =>
    match parseOpusHead p1.payload with
    | none => .error (.streamFormatError
        "first packet is not an Opus stream identification packet")
    | some (ver, ch, sr) =>
      match parsePage rest with
      | none => .error (.streamFormatError
          "audio region has no second OGG page for the comments packet")
      | some (p2, _) =>
        match parseComments p2.payload with
        | none => .error (.streamFormatError
            "second packet is not an Opus comments packet")
        | some (vendor, ss) =>
          .ok { opusVersion := ver, channelCount := ch, sampleRate := sr,
                streamSerial := p1.streamSerial, commentsVendor := vendor,
                comments := ss }

/-! ## TafValidator (spec §4.4) and `get_header_info` (spec §6) -/

/-- Modelled from the spec (§4.4): structural validation of present file
contents, short-circuiting on the first failure: the file is at least 4096
bytes, the header decodes, `dataLength` is consistent with
`totalSize - 4096`, and the audio stream analysis succeeds. -/
def validateBytes (b : Bytes) : Except TafError TonieHeader :=
  if b.length < 4096 then
    .error (.headerDecodeError
      "file is smaller than the fixed 4096-byte header region")
  else
    match readHeader b with
    | .error e => .error e
    | .ok (_, h) =>
      if h.dataLength ≠ b.length - 4096 then
        .error (.headerDecodeError
          "declared dataLength is inconsistent with the audio region size")
      else
        match analyzeAudio (b.drop audioRegionOffset) with
        | .error e => .error e
        | .ok _ => .ok h

/-- Modelled from the spec (§4.4, §6): `check_tonie_file` / `checkValid`.
A non-existent file returns `false` without raising; an existing but
malformed file raises the typed decode error of the failing stage. -/
def check_tonie_file (fs : FS) (path : String) : Except TafError Bool :=
  match fs path with
  | none => .ok false
  | some b =>
    match validateBytes b with
    | .error e => .error e
    | .ok _ => .ok true

/-- The result record of `get_header_info` (spec §6 `readHeaderInfo`). -/
structure HeaderInfo where
  headerSize : Nat
  header : TonieHeader
  fileSize : Nat
  audioSize : Nat
  opusVersion : Nat
  channelCount : Nat
  sampleRate : Nat
  streamSerial : Nat
deriving Repr, DecidableEq

/-- Modelled from the spec (§6): `readHeaderInfo` / `get_header_info`:
decode the header and analyze the audio region, reporting the audio region
size `totalSize - 4096` (the audio region starts at the constant offset
4096, spec §3). -/
def get_header_info (b : Bytes) : Except TafError HeaderInfo :=
  match readHeader b with
  | .error e => .error e
  | .ok (n, h) =>
    match analyzeAudio (b.drop audioRegionOffset) with
    | .error e => .error e
    | .ok info =>
      .ok { headerSize := n, header := h, fileSize := b.length,
            audioSize := b.length - audioRegionOffset,
            opusVersion := info.opusVersion,
            channelCount := info.channelCount,
            sampleRate := info.sampleRate,
            streamSerial := info.streamSerial }

/-! ## TafComparator (spec §4.5) -/

/-- Which file a surplus page belongs to. -/
inductive DiffSide where
  | A
  | B
deriving Repr, DecidableEq

/-- One page-level difference (spec §4.5 `PageDiff`). -/
structure PageDiff where
  pageIndex : Nat
  onlyIn : Option DiffSide
  differingFields : List (String × Nat × Nat)
deriving Repr, DecidableEq

/-- The detailed page-level diff (spec §4.5 `oggPagesDiff`). -/
structure OggPagesDiff where
  totalPagesA : Nat
  totalPagesB : Nat
  pageDifferences : List PageDiff
deriving Repr, DecidableEq

/-- The comparison result record (spec §4.5 `ComparisonResult`). -/
structure ComparisonResult where
  identical : Bool
  differences : List String
  fileSizeDiff : Int
  metadataDiff : List (String × String × String)
  audioDiff : List (String × Nat × Nat)
  oggPagesDiff : Option OggPagesDiff
deriving Repr, DecidableEq

/-- The page differences recorded in a result; empty when no page-level
diff was produced. -/
def ComparisonResult.oggPageDifferences (r : ComparisonResult) : List PageDiff :=
  match r.oggPagesDiff with
  | none => []
  | some d => d.pageDifferences

/-- Modelled from the spec (§4.5): the page header fields compared in
lock-step: `pageSequenceNumber`, `granulePosition`, `streamSerial`,
`headerType`, segment count, computed page byte size and `checksum`. -/
def pageFieldDiffs (pa pb : OggPage) : List (String × Nat × Nat) :=
  (if pa.pageSequenceNumber ≠ pb.pageSequenceNumber then
    [("pageSequenceNumber", pa.pageSequenceNumber, pb.pageSequenceNumber)]
   else []) ++
  (if pa.granulePosition ≠ pb.granulePosition then
    [("granulePosition", pa.granulePosition, pb.granulePosition)] else []) ++
  (if pa.streamSerial ≠ pb.streamSerial then
    [("streamSerial", pa.streamSerial, pb.streamSerial)] else []) ++
  (if pa.headerType ≠ pb.headerType then
    [("headerType", pa.headerType, pb.headerType)] else []) ++
  (if pa.segmentTable.length ≠ pb.segmentTable.length then
    [("segmentCount", pa.segmentTable.length, pb.segmentTable.length)]
   else []) ++
  (if pa.pageSize ≠ pb.pageSize then
    [("size", pa.pageSize, pb.pageSize)] else []) ++
  (if pa.checksum ≠ pb.checksum then
    [("checksum", pa.checksum, pb.checksum)] else [])

/-- Modelled from the spec (§4.5): walk both page sequences in lock-step by
page index; pages existing on one side only are recorded as `onlyIn`. -/
def comparePagesFrom : Nat → List OggPage → List OggPage → List PageDiff
  | _, [], [] => []
  | i, [], pb :: bs =>
    { pageIndex := i, onlyIn := some .B, differingFields := [] } ::
      comparePagesFrom (i + 1) [] bs
  | i, _pa :: as, [] =>
    { pageIndex := i, onlyIn := some .A, differingFields := [] } ::
      comparePagesFrom (i + 1) as []
  | i, pa :: as, pb :: bs =>
    (if pageFieldDiffs pa pb = [] then []
     else [{ pageIndex := i, onlyIn := none,
             differingFields := pageFieldDiffs pa pb }]) ++
      comparePagesFrom (i + 1) as bs

/-- Header-field (metadata) differences between two decoded headers. -/
def headerFieldDiffs (ha hb : TonieHeader) : List (String × String × String) :=
  (if ha.dataLength ≠ hb.dataLength then
    [("dataLength", toString ha.dataLength, toString hb.dataLength)]
   else []) ++
  (if ha.timestamp ≠ hb.timestamp then
    [("timestamp", toString ha.timestamp, toString hb.timestamp)] else []) ++
  (if ha.chapterPages ≠ hb.chapterPages then
    [("chapterPages", toString ha.chapterPages, toString hb.chapterPages)]
   else []) ++
  (if ha.audioSha1 ≠ hb.audioSha1 then
    [("audioSha1", toString ha.audioSha1, toString hb.audioSha1)] else [])

/-- Metadata diff of two files: header fields that differ when both headers
decode (spec §4.5 summary diff). -/
def metadataDiffOf (ba bb : Bytes) : List (String × String × String) :=
  match readHeader ba, readHeader bb with
  | .ok (_, ha), .ok (_, hb) => headerFieldDiffs ha hb
  | _, _ => []

/-- Audio-property diff of two files when both audio streams analyze. -/
def audioDiffOf (ba bb : Bytes) : List (String × Nat × Nat) :=
  match analyzeAudio (ba.drop audioRegionOffset),
        analyzeAudio (bb.drop audioRegionOffset) with
  | .ok ia, .ok ib =>
    (if ia.opusVersion ≠ ib.opusVersion then
      [("opusVersion", ia.opusVersion, ib.opusVersion)] else []) ++
    (if ia.channelCount ≠ ib.channelCount then
      [("channelCount", ia.channelCount, ib.channelCount)] else []) ++
    (if ia.sampleRate ≠ ib.sampleRate then
      [("sampleRate", ia.sampleRate, ib.sampleRate)] else [])
  | _, _ => []

/-- Modelled from the spec (§4.5): `compare` / `compare_taf_files`.
Missing files never raise: they produce `identical = false` with a
human-readable entry.  Byte-identical files short-circuit to
`identical = true` with empty diffs, avoiding page-level work.  Otherwise
the summary diff (file size, header fields, audio fields) is always
computed and the page-level diff only when `detailed` is set. -/
def compare_taf_files (fs : FS) (a b : String) (detailed : Bool) :
    ComparisonResult :=
  match fs a, fs b with
  | some ba, some bb =>
    if ba = bb then
      { identical := true, differences := [], fileSizeDiff := 0,
        metadataDiff := [], audioDiff := [], oggPagesDiff := none }
    else
      let md := metadataDiffOf ba bb
      let ad := audioDiffOf ba bb
      { identical := false,
        differences :=
          (if ba.length ≠ bb.length then ["File sizes differ"] else []) ++
          (if md ≠ [] then ["Headers differ"] else []) ++
          (if ad ≠ [] then ["Audio streams differ"] else []),
        fileSizeDiff := (bb.length : Int) - (ba.length : Int),
        metadataDiff := md, audioDiff := ad,
        oggPagesDiff :=
          if detailed then
            some { totalPagesA := (parsePages (ba.drop audioRegionOffset)).length,
                   totalPagesB := (parsePages (bb.drop audioRegionOffset)).length,
                   pageDifferences :=
                     comparePagesFrom 0 (parsePages (ba.drop audioRegionOffset))
                       (parsePages (bb.drop audioRegionOffset)) }
          else none }
  | _, _ =>
    { identical := false, differences := ["One or both files do not exist"],
      fileSizeDiff := 0, metadataDiff := [], audioDiff := [],
      oggPagesDiff := none }

/-! ## ChapterSplitter (spec §4.6) -/

/-- One step of the OGG CRC-32 (polynomial 0x04c11db7, not reflected):
shift left by one bit, folding the shifted-out bit back with the
polynomial. -/
def crcShift (c : Nat) : Nat :=
  if c < 0x80000000 then (c * 2) % 0x100000000
  else ((c * 2) % 0x100000000) ^^^ 0x04c11db7

/-- Fold one byte into the OGG CRC-32 state. -/
def crcByte (c b : Nat) : Nat :=
  crcShift (crcShift (crcShift (crcShift (crcShift (crcShift (crcShift
    (crcShift (c ^^^ ((b % 256) * 0x1000000)))))))))

/-- The OGG CRC-32 of a byte string (initial value 0). -/
def crcBytes (b : Bytes) : Nat := b.foldl crcByte 0

/-- Serialise a page back to its standard OGG byte layout (spec §6). -/
def serializePage (p : OggPage) : Bytes :=
  capturePattern ++ [p.version, p.headerType] ++ leBytes 8 p.granulePosition ++
  leBytes 4 p.streamSerial ++ leBytes 4 p.pageSequenceNumber ++
  leBytes 4 p.checksum ++ [p.segmentTable.length] ++ p.segmentTable ++ p.payload

/-- Modelled from the spec (§4.6): recompute the checksum of a page whose
header fields were mutated: the CRC is taken over the page bytes with the
checksum field zeroed. -/
def recomputeChecksum (p : OggPage) : OggPage :=
  { p with checksum := crcBytes (serializePage { p with checksum := 0 }) }

/-- Modelled from the spec (§4.6): renumber a page to sequence number `i`;
a page copied verbatim keeps its original checksum, a mutated page gets a
recomputed one. -/
def renumberPage (i : Nat) (p : OggPage) : OggPage :=
  if p.pageSequenceNumber = i then p
  else recomputeChecksum { p with pageSequenceNumber := i }

/-- Modelled from the spec (§4.6): the pages of one output file: a fresh
copy of the original first two pages followed by the chapter's page range,
renumbered from 0 within the new file. -/
def chapterFilePages (firstTwo chapter : List OggPage) : List OggPage :=
  (firstTwo ++ chapter).mapIdx (fun i p => renumberPage i p)

/-- Modelled from the spec (§4.6): the page ranges of the chapters.
Chapter `i` spans `[chapterPages[i], chapterPages[i+1])` and the last
chapter spans to end of stream; an empty `chapterPages` treats the whole
stream as one chapter; an index beyond the page count is clamped to the
available pages. -/
def chapterRanges (cp : List Nat) (total : Nat) : List (Nat × Nat) :=
  let starts := if cp = [] then [0] else cp.map (fun x => min x total)
  starts.zip (starts.tail ++ [total])

/-- Modelled from the spec (§4.6): the output file name of chapter `i`
(0-based here): the 1-based zero-padded 2-digit chapter index, an
underscore, the input's base name and the `.opus` extension. -/
def chapterName (originalPath : String) (i : Nat) : String :=
  (if i + 1 < 10 then "0" ++ toString (i + 1) else toString (i + 1)) ++ "_" ++
  (((originalPath.splitOn "/").getLastD originalPath).splitOn ".").headD "" ++
  ".opus"

/-- Modelled from the spec (§4.6, §7): `split` / `split_to_opus_files`.
Returns the ordered sequence of written output files (path and page
content).  Zero parsable audio pages raise (nothing to split); on any
failure no output file is produced (§7: write to a temporary location and
rename on success, or discard on failure — modelled by the atomic
`Except` result). -/
def split_to_opus_files (fs : FS) (path outDir : String) :
    Except TafError (List (String × List OggPage)) :=
  match fs path with
  | none => .error (.headerDecodeError "input file does not exist")
  | some b =>
    match readHeader b with
    | .error e => .error e
    | .ok (_, h) =>
      let pages := parsePages (b.drop audioRegionOffset)
      if pages = [] then
        .error (.streamFormatError "no audio pages found: nothing to split")
      else
        .ok ((chapterRanges h.chapterPages pages.length).mapIdx
          (fun i r => (outDir ++ "/" ++ chapterName path i,
            chapterFilePages (pages.take 2)
              ((pages.drop r.1).take (r.2 - r.1)))))

/-- The output files left in the output directory after a `split` attempt:
all of them on success, none on failure (spec §7: no partial or corrupt
output file is ever left behind). -/
def splitFilesWritten (fs : FS) (path outDir : String) :
    List (String × List OggPage) :=
  match split_to_opus_files fs path outDir with
  | .error _ => []
  | .ok outs => outs

/-! ## Helper lemmas about the writer, validator and analyzer -/

theorem encodeVarint_small (n : Nat) (h : n < 128) : encodeVarint n = [n] := by
  rw [encodeVarint]
  simp [h]

theorem writeHeaderBytes_length (h : TonieHeader)
    (hlen : (serializeTonieHeader h).length ≤ 4092) :
    (writeHeaderBytes h).length = 4096 := by
  simp [writeHeaderBytes]
  omega

theorem writeTafFile_length (h : TonieHeader) (audio : Bytes)
    (hlen : (serializeTonieHeader h).length ≤ 4092) :
    (writeTafFile h audio).length = 4096 + audio.length := by
  unfold writeTafFile
  rw [List.length_append, writeHeaderBytes_length h hlen]

theorem writeTafFile_drop (h : TonieHeader) (audio : Bytes)
    (hlen : (serializeTonieHeader h).length ≤ 4092) :
    (writeTafFile h audio).drop audioRegionOffset = audio := by
  unfold writeTafFile audioRegionOffset
  rw [show (4096 : Nat) = (writeHeaderBytes h).length from
    (writeHeaderBytes_length h hlen).symm]
  exact List.drop_left _ _

theorem beU32of_writeTafFile (h : TonieHeader) (audio : Bytes) :
    beU32of (writeTafFile h audio) = some 4092 := rfl

/-- Reading back a written header region recovers the header and the
conforming declared length 4092. -/
theorem readHeader_writeTafFile (h : TonieHeader) (audio : Bytes)
    (hlen : (serializeTonieHeader h).length ≤ 4092) :
    readHeader (writeTafFile h audio) = .ok (4092, h) := by
  unfold readHeader
  rw [beU32of_writeTafFile h audio]
  dsimp only
  have hlen4 : ¬ ((writeTafFile h audio).length < 4 + 4092) := by
    rw [writeTafFile_length h audio hlen]
    omega
  rw [if_neg hlen4]
  have hdrop : (writeTafFile h audio).drop 4 =
      (serializeTonieHeader h ++
        List.replicate (4092 - (serializeTonieHeader h).length) 0) ++ audio := by
    unfold writeTafFile writeHeaderBytes
    rw [List.append_assoc]
    rw [show (4 : Nat) = ([0x00, 0x00, 0x0F, 0xFC] : Bytes).length from rfl]
    exact List.drop_left _ _
  rw [hdrop]
  have hpadlen : (serializeTonieHeader h ++
      List.replicate (4092 - (serializeTonieHeader h).length) 0).length = 4092 := by
    simp
    omega
  rw [List.take_left' hpadlen]
  have hpad : List.replicate (4092 - (serializeTonieHeader h).length) 0 = [] ∨
      (List.replicate (4092 - (serializeTonieHeader h).length) 0).head? =
        some 0 := by
    cases hk : 4092 - (serializeTonieHeader h).length with
    | zero => left; simp
    | succ k => right; simp [List.replicate]
  rw [parseTonieHeader_serialize_append h _ hpad]

/-- A file written by the conforming writer with a consistent `dataLength`
and analyzable audio validates. -/
theorem validateBytes_writeTafFile (h : TonieHeader) (audio : Bytes)
    (hlen : (serializeTonieHeader h).length ≤ 4092)
    (hdl : h.dataLength = audio.length)
    (info : AudioStreamInfo) (hana : analyzeAudio audio = .ok info) :
    validateBytes (writeTafFile h audio) = .ok h := by
  unfold validateBytes
  have h1 : ¬ ((writeTafFile h audio).length < 4096) := by
    rw [writeTafFile_length h audio hlen]
    omega
  rw [if_neg h1, readHeader_writeTafFile h audio hlen]
  have h2 : ¬ (h.dataLength ≠ (writeTafFile h audio).length - 4096) := by
    rw [writeTafFile_length h audio hlen, hdl]
    omega
  simp only [if_neg h2]
  rw [writeTafFile_drop h audio hlen, hana]

/-- Inversion: a validated byte string has a decoded header whose
`dataLength` matches the audio region size and an analyzable audio region. -/
theorem validateBytes_ok_inv (b : Bytes) (h : TonieHeader)
    (hv : validateBytes b = .ok h) :
    4096 ≤ b.length ∧ ∃ n info, readHeader b = .ok (n, h) ∧
      h.dataLength = b.length - 4096 ∧
      analyzeAudio (b.drop audioRegionOffset) = .ok info := by
  unfold validateBytes at hv
  split at hv
  · cases hv
  · rename_i hsize
    split at hv
    · cases hv
    · rename_i p n h' heq
      split at hv
      · cases hv
      · rename_i hcons
        split at hv
        · cases hv
        · rename_i info hana
          simp only [Except.ok.injEq] at hv
          subst hv
          exact ⟨by omega, n, info, heq, by omega, hana⟩

theorem readHeader_error_inv (b : Bytes) (e : TafError)
    (h : readHeader b = .error e) : ∃ m, e = .headerDecodeError m := by
  unfold readHeader at h
  split at h
  · simp only [Except.error.injEq] at h
    exact ⟨_, h.symm⟩
  · split at h
    · simp only [Except.error.injEq] at h
      exact ⟨_, h.symm⟩
    · split at h
      · simp only [Except.error.injEq] at h
        exact ⟨_, h.symm⟩
      · cases h

theorem analyzeAudio_ok_parsePage (a : Bytes) (i : AudioStreamInfo)
    (h : analyzeAudio a = .ok i) : ∃ p r, parsePage a = some (p, r) := by
  unfold analyzeAudio at h
  split at h
  · cases h
  · rename_i p r heq
    exact ⟨p, r, heq⟩

/-! ## Concrete example files used as witnesses -/

/-- A 19-byte Opus stream-identification payload: the `"OpusHead"` magic,
version 1, 2 channels, zero pre-skip, input sample rate 48000 (little
endian), zero output gain, mapping family 0. -/
def opusHeadPayload : Bytes :=
  [0x4F, 0x70, 0x75, 0x73, 0x48, 0x65, 0x61, 0x64,
   1, 2, 0, 0, 128, 187, 0, 0, 0, 0, 0]

/-- A 20-byte Opus comments payload: the `"OpusTags"` magic, a 4-byte
vendor string `"test"` and zero comment entries. -/
def opusTagsPayload : Bytes :=
  [0x4F, 0x70, 0x75, 0x73, 0x54, 0x61, 0x67, 0x73,
   4, 0, 0, 0, 116, 101, 115, 116, 0, 0, 0, 0]

/-- Page 0 of the example audio stream: the stream-identification page
(beginning-of-stream flag, serial 1, sequence 0, one 19-byte segment). -/
def audioPage1 : Bytes :=
  [0x4F, 0x67, 0x67, 0x53, 0, 2, 0, 0, 0, 0, 0, 0, 0, 0,
   1, 0, 0, 0, 0, 0, 0, 0, 0, 0, 0, 0, 1, 19] ++ opusHeadPayload

/-- Page 1 of the example audio stream: the comments page (serial 1,
sequence 1, one 20-byte segment). -/
def audioPage2 : Bytes :=
  [0x4F, 0x67, 0x67, 0x53, 0, 0, 0, 0, 0, 0, 0, 0, 0, 0,
   1, 0, 0, 0, 1, 0, 0, 0, 0, 0, 0, 0, 1, 20] ++ opusTagsPayload

/-- Page 2 of the example audio stream: a one-byte audio data page
(end-of-stream flag, serial 1, sequence 2). -/
def audioPage3 : Bytes :=
  [0x4F, 0x67, 0x67, 0x53, 0, 4, 0, 0, 0, 0, 0, 0, 0, 0,
   1, 0, 0, 0, 2, 0, 0, 0, 0, 0, 0, 0, 1, 1, 55]

/-- The example audio region: 124 bytes holding three OGG pages. -/
def audioPages : Bytes := audioPage1 ++ audioPage2 ++ audioPage3

/-- The example header: 124 audio bytes, one chapter starting at page 2. -/
def validTafHeader : TonieHeader :=
  { dataLength := 124, timestamp := 0, chapterPages := [2], audioSha1 := [] }

/-- A valid example TAF file produced by the conforming writer. -/
def validTaf : Bytes := writeTafFile validTafHeader audioPages

/-- A corrupt example file: arbitrary bytes with no capture pattern. -/
def garbageTaf : Bytes := List.replicate 4200 7

/-- A structurally valid TAF file whose length prefix is 2 instead of the
conforming 4092: a 2-byte metadata message directly followed by zero
padding up to offset 4096 and the example audio region. -/
def oddTaf : Bytes :=
  ([0, 0, 0, 2] ++ [0x08, 124] ++ List.replicate 4090 0) ++ audioPages

/-- The example file system holding the witness files. -/
def exampleFS : FS := fun p =>
  if p = "good.taf" then some validTaf
  else if p = "garbage.taf" then some garbageTaf
  else if p = "odd.taf" then some oddTaf
  else if p = "empty1.taf" then some []
  else if p = "empty2.taf" then some []
  else if p = "tiny1.taf" then some [0]
  else if p = "tiny2.taf" then some [0, 0]
  else none

/-- The audio-stream facts of the example audio region. -/
def audioPagesInfo : AudioStreamInfo :=
  { opusVersion := 1, channelCount := 2, sampleRate := 48000,
    streamSerial := 1, commentsVendor := [116, 101, 115, 116], comments := [] }

theorem analyzeAudio_audioPages :
    analyzeAudio audioPages = .ok audioPagesInfo := by decide

theorem serialize_validTafHeader :
    serializeTonieHeader validTafHeader = [0x08, 124, 0x1A, 1, 2] := by
  rw [serializeTonieHeader]
  rw [show validTafHeader.dataLength = 124 from rfl]
  rw [show validTafHeader.timestamp = 0 from rfl]
  rw [show validTafHeader.chapterPages = [2] from rfl]
  rw [show validTafHeader.audioSha1 = [] from rfl]
  rw [show packedVarints [2] = encodeVarint 2 ++ [] from rfl]
  rw [encodeVarint_small 2 (by norm_num), encodeVarint_small 124 (by norm_num)]
  simp
  rw [encodeVarint_small 1 (by norm_num)]
  rfl

theorem validateBytes_validTaf : validateBytes validTaf = .ok validTafHeader := by
  unfold validTaf
  exact validateBytes_writeTafFile validTafHeader audioPages
    (by rw [serialize_validTafHeader]; norm_num)
    (by decide) audioPagesInfo analyzeAudio_audioPages

theorem check_good : check_tonie_file exampleFS "good.taf" = .ok true := by
  unfold check_tonie_file
  rw [show exampleFS "good.taf" = some validTaf from rfl]
  dsimp only
  rw [validateBytes_validTaf]

/-! ## Claim theorems -/

/-- C3: for every file `f`, `compare(f, f, detailed=true)` returns
`identical = true` with empty diffs and an empty
`oggPagesDiff.pageDifferences`; byte-identical inputs short-circuit to the
identical result with no recorded differences. -/
theorem claim_C3 (fs : FS) (f : String) (b : Bytes) (hf : fs f = some b) :
    (compare_taf_files fs f f true).identical = true ∧
    (compare_taf_files fs f f true).differences = [] ∧
    (compare_taf_files fs f f true).metadataDiff = [] ∧
    (compare_taf_files fs f f true).audioDiff = [] ∧
    (compare_taf_files fs f f true).oggPageDifferences = [] := by
  unfold compare_taf_files
  rw [hf]
  dsimp only
  rw [if_pos rfl]
  exact ⟨rfl, rfl, rfl, rfl, rfl⟩

theorem claim_C3_witness :
    exampleFS "good.taf" = some validTaf ∧
    ((compare_taf_files exampleFS "good.taf" "good.taf" true).identical = true ∧
     (compare_taf_files exampleFS "good.taf" "good.taf" true).differences = [] ∧
     (compare_taf_files exampleFS "good.taf" "good.taf" true).metadataDiff = [] ∧
     (compare_taf_files exampleFS "good.taf" "good.taf" true).audioDiff = [] ∧
     (compare_taf_files exampleFS "good.taf" "good.taf" true).oggPageDifferences
       = []) :=
  ⟨rfl, claim_C3 exampleFS "good.taf" validTaf rfl⟩

/-- C6: for existing files `a` and `b`, `compare(a,b).fileSizeDiff` equals
`size(b) - size(a)` as an integer, and the size diff is antisymmetric for
every pair of paths. -/
theorem claim_C6 (fs : FS) (a b : String) (detailed : Bool) (x y : Bytes)
    (ha : fs a = some x) (hb : fs b = some y) :
    (compare_taf_files fs a b detailed).fileSizeDiff =
      (y.length : Int) - (x.length : Int) ∧
    ∀ p q : String,
      (compare_taf_files fs p q detailed).fileSizeDiff =
        -(compare_taf_files fs q p detailed).fileSizeDiff := by
  constructor
  · unfold compare_taf_files
    rw [ha, hb]
    dsimp only
    by_cases hxy : x = y
    · rw [if_pos hxy]
      subst hxy
      simp
    · rw [if_neg hxy]
  · intro p q
    cases hp : fs p with
    | none =>
      cases hq : fs q with
      | none =>
        unfold compare_taf_files
        rw [hp, hq]
        norm_num
      | some v =>
        unfold compare_taf_files
        rw [hp, hq]
        norm_num
    | some u =>
      cases hq : fs q with
      | none =>
        unfold compare_taf_files
        rw [hp, hq]
        norm_num
      | some v =>
        unfold compare_taf_files
        rw [hp, hq]
        dsimp only
        by_cases huv : u = v
        · rw [if_pos huv, if_pos (huv.symm)]
          norm_num
        · rw [if_neg huv, if_neg (fun hc : v = u => huv (Eq.symm hc))]
          dsimp only
          ring

theorem claim_C6_witness :
    (exampleFS "tiny1.taf" = some [0] ∧ exampleFS "tiny2.taf" = some [0, 0]) ∧
    ((compare_taf_files exampleFS "tiny1.taf" "tiny2.taf" false).fileSizeDiff =
        (([0, 0] : Bytes).length : Int) - (([0] : Bytes).length : Int) ∧
      ∀ p q : String,
        (compare_taf_files exampleFS p q false).fileSizeDiff =
          -(compare_taf_files exampleFS q p false).fileSizeDiff) :=
  ⟨⟨rfl, rfl⟩,
   claim_C6 exampleFS "tiny1.taf" "tiny2.taf" false [0] [0, 0] rfl rfl⟩

/-- C7: comparing an existing file against a nonexistent path does not
raise (the comparison is a total function of the file system) and returns
`identical = false` with a human-readable entry describing the I/O
problem. -/
theorem claim_C7 (fs : FS) (a b : String) (x : Bytes) (detailed : Bool)
    (ha : fs a = some x) (hb : fs b = none) :
    (compare_taf_files fs a b detailed).identical = false ∧
    "One or both files do not exist" ∈
      (compare_taf_files fs a b detailed).differences := by
  unfold compare_taf_files
  rw [ha, hb]
  dsimp only
  exact ⟨rfl, by simp⟩

theorem claim_C7_witness :
    (exampleFS "good.taf" = some validTaf ∧ exampleFS "missing.taf" = none) ∧
    ((compare_taf_files exampleFS "good.taf" "missing.taf" true).identical
        = false ∧
      "One or both files do not exist" ∈
        (compare_taf_files exampleFS "good.taf" "missing.taf" true).differences) :=
  ⟨⟨rfl, rfl⟩,
   claim_C7 exampleFS "good.taf" "missing.taf" validTaf true rfl rfl⟩

/-- C10: `compare` does not require valid TAF inputs: any two byte-identical
files — including zero-byte files far below the 4096-byte header region —
compare as `identical = true` with no differences and a zero size diff
(rather than any validity error; the comparison is total). -/
theorem claim_C10 (fs : FS) (a b : String) (bytes : Bytes) (detailed : Bool)
    (ha : fs a = some bytes) (hb : fs b = some bytes) :
    (compare_taf_files fs a b detailed).identical = true ∧
    (compare_taf_files fs a b detailed).differences = [] ∧
    (compare_taf_files fs a b detailed).fileSizeDiff = 0 := by
  unfold compare_taf_files
  rw [ha, hb]
  dsimp only
  rw [if_pos rfl]
  exact ⟨rfl, rfl, rfl⟩

theorem claim_C10_witness :
    (exampleFS "empty1.taf" = some [] ∧ exampleFS "empty2.taf" = some []) ∧
    ((compare_taf_files exampleFS "empty1.taf" "empty2.taf" false).identical
        = true ∧
      (compare_taf_files exampleFS "empty1.taf" "empty2.taf" false).differences
        = [] ∧
      (compare_taf_files exampleFS "empty1.taf" "empty2.taf" false).fileSizeDiff
        = 0) :=
  ⟨⟨rfl, rfl⟩,
   claim_C10 exampleFS "empty1.taf" "empty2.taf" [] false rfl rfl⟩

/-- C5: serialising a `TonieHeader` and parsing the bytes back yields
field-for-field equality; fields never set read back as their schema
defaults (`dataLength` 0, `timestamp` 0, empty `chapterPages`), as the
parse of an empty message shows. -/
theorem claim_C5 (h : TonieHeader) :
    parseTonieHeader (serializeTonieHeader h) = some h ∧
    parseTonieHeader [] = some (⟨0, 0, [], []⟩ : TonieHeader) := by
  refine ⟨parseTonieHeader_serializeTonieHeader h, ?_⟩
  rw [parseTonieHeader, parseFields]
  simp

theorem replicate7_ne_capture (k : Nat) :
    List.replicate k 7 ≠ capturePattern := by
  cases k with
  | zero => simp [capturePattern]
  | succ k =>
    intro hcon
    rw [List.replicate_succ, capturePattern] at hcon
    simp at hcon

theorem garbage_noCapture : ∀ i, (garbageTaf.drop i).take 4 ≠ capturePattern := by
  intro i
  unfold garbageTaf
  rw [List.drop_replicate, List.take_replicate]
  exact replicate7_ne_capture _

theorem check_ok_inv (fs : FS) (p : String) (b : Bytes)
    (hfs : fs p = some b) (hok : check_tonie_file fs p = .ok true) :
    ∃ hh, validateBytes b = .ok hh := by
  unfold check_tonie_file at hok
  rw [hfs] at hok
  dsimp only at hok
  cases hvb : validateBytes b with
  | error e =>
    rw [hvb] at hok
    exact absurd hok (by simp)
  | ok hh => exact ⟨hh, rfl⟩

/-- C2: `check_tonie_file` returns `false` without raising when the path
does not exist; when the path exists but the file is malformed (no valid
capture pattern anywhere), validation raises a typed decode error
(`HeaderDecodeError` or `StreamFormatError`) and never returns a valid
result. -/
theorem claim_C2 (fs : FS) (p : String) :
    (fs p = none → check_tonie_file fs p = .ok false) ∧
    (∀ b : Bytes, fs p = some b →
      (∀ i, (b.drop i).take 4 ≠ capturePattern) →
      ∃ msg, check_tonie_file fs p = .error (.headerDecodeError msg) ∨
        check_tonie_file fs p = .error (.streamFormatError msg)) := by
  constructor
  · intro hnone
    unfold check_tonie_file
    rw [hnone]
  · intro b hb hnc
    have hcheck : ∀ e, validateBytes b = .error e →
        check_tonie_file fs p = .error e := by
      intro e he
      unfold check_tonie_file
      rw [hb]
      dsimp only
      rw [he]
    cases hv : validateBytes b with
    | ok hh =>
      exfalso
      obtain ⟨hge, n, info, hrh, hdl, hana⟩ := validateBytes_ok_inv b hh hv
      obtain ⟨pg, r, hpg⟩ := analyzeAudio_ok_parsePage _ info hana
      exact hnc audioRegionOffset (parsePage_capture _ _ _ hpg)
    | error e =>
      cases e with
      | headerDecodeError m => exact ⟨m, Or.inl (hcheck _ hv)⟩
      | streamFormatError m => exact ⟨m, Or.inr (hcheck _ hv)⟩

theorem claim_C2_witness :
    check_tonie_file exampleFS "missing.taf" = .ok false ∧
    (∃ msg,
      check_tonie_file exampleFS "garbage.taf" =
        .error (.headerDecodeError msg) ∨
      check_tonie_file exampleFS "garbage.taf" =
        .error (.streamFormatError msg)) :=
  ⟨(claim_C2 exampleFS "missing.taf").1 rfl,
   (claim_C2 exampleFS "garbage.taf").2 garbageTaf rfl garbage_noCapture⟩

theorem garbage_pages_nil :
    parsePages (garbageTaf.drop audioRegionOffset) = [] := by
  rw [show garbageTaf.drop audioRegionOffset = List.replicate 104 7 by
    unfold garbageTaf audioRegionOffset
    rw [List.drop_replicate]]
  rw [parsePages_eq_nil_iff]
  decide

/-- C8: `split` raises when the input yields zero parsable audio pages, and
on failure no output file is left behind (the modelled write contract is
atomic: a failing split produces no files). -/
theorem claim_C8 (fs : FS) (p dir : String) (b : Bytes)
    (hfs : fs p = some b)
    (hpg : parsePages (b.drop audioRegionOffset) = []) :
    (∃ e, split_to_opus_files fs p dir = .error e) ∧
    splitFilesWritten fs p dir = [] := by
  have hsplit : ∃ e, split_to_opus_files fs p dir = .error e := by
    unfold split_to_opus_files
    rw [hfs]
    dsimp only
    cases hr : readHeader b with
    | error e => exact ⟨e, rfl⟩
    | ok q =>
      obtain ⟨n, hh⟩ := q
      dsimp only
      rw [if_pos hpg]
      exact ⟨_, rfl⟩
  obtain ⟨e, he⟩ := hsplit
  refine ⟨⟨e, he⟩, ?_⟩
  unfold splitFilesWritten
  rw [he]

theorem claim_C8_witness :
    (exampleFS "garbage.taf" = some garbageTaf ∧
      parsePages (garbageTaf.drop audioRegionOffset) = []) ∧
    ((∃ e, split_to_opus_files exampleFS "garbage.taf" "out" = .error e) ∧
      splitFilesWritten exampleFS "garbage.taf" "out" = []) :=
  ⟨⟨rfl, garbage_pages_nil⟩,
   claim_C8 exampleFS "garbage.taf" "out" garbageTaf rfl garbage_pages_nil⟩

/-- C9: every file accepted by `validate` has a decoded `dataLength` equal
to the audio region size `totalSize - 4096` reported as `audioSize` by
`get_header_info`; the consistency check sits after header decode and
before audio-stream analysis: a decodable header with a mismatched
`dataLength` fails with the header-stage consistency error regardless of
the audio region's content. -/
theorem claim_C9 (fs : FS) (p : String) (b : Bytes)
    (hfs : fs p = some b)
    (hok : check_tonie_file fs p = .ok true) :
    (∃ info, get_header_info b = .ok info ∧
      info.header.dataLength = info.audioSize ∧
      info.audioSize = b.length - 4096) ∧
    (∀ (b' : Bytes) (n : Nat) (h : TonieHeader), readHeader b' = .ok (n, h) →
      4096 ≤ b'.length → h.dataLength ≠ b'.length - 4096 →
      validateBytes b' = .error (.headerDecodeError
        "declared dataLength is inconsistent with the audio region size")) := by
  constructor
  · obtain ⟨hh, hvb⟩ := check_ok_inv fs p b hfs hok
    obtain ⟨hge, n, info, hrh, hdl, hana⟩ := validateBytes_ok_inv b hh hvb
    refine ⟨HeaderInfo.mk n hh b.length (b.length - audioRegionOffset)
      info.opusVersion info.channelCount info.sampleRate info.streamSerial,
      ?_, ?_, ?_⟩
    · unfold get_header_info
      rw [hrh]
      dsimp only
      rw [hana]
    · exact hdl
    · rfl
  · intro b' n h hrh hge hne
    unfold validateBytes
    rw [if_neg (by omega), hrh]
    dsimp only
    rw [if_pos hne]

theorem claim_C9_witness :
    (exampleFS "good.taf" = some validTaf ∧
      check_tonie_file exampleFS "good.taf" = .ok true) ∧
    ((∃ info, get_header_info validTaf = .ok info ∧
        info.header.dataLength = info.audioSize ∧
        info.audioSize = validTaf.length - 4096) ∧
      (∀ (b' : Bytes) (n : Nat) (h : TonieHeader), readHeader b' = .ok (n, h) →
        4096 ≤ b'.length → h.dataLength ≠ b'.length - 4096 →
        validateBytes b' = .error (.headerDecodeError
          "declared dataLength is inconsistent with the audio region size"))) :=
  ⟨⟨rfl, check_good⟩, claim_C9 exampleFS "good.taf" validTaf rfl check_good⟩

theorem map_min_of_bounded (cp : List Nat) (total : Nat)
    (hb : ∀ x ∈ cp, x ≤ total) :
    cp.map (fun x => min x total) = cp := by
  induction cp with
  | nil => rfl
  | cons a l ih =>
    simp only [List.map_cons]
    rw [min_eq_left (hb a (List.mem_cons_self a l))]
    rw [ih (fun x hx => hb x (List.mem_cons_of_mem a hx))]

theorem chapterRanges_length (cp : List Nat) (total : Nat) :
    (chapterRanges cp total).length = max 1 cp.length := by
  unfold chapterRanges
  by_cases hcp : cp = []
  · subst hcp
    simp
  · rw [if_neg hcp]
    have h1 : 0 < cp.length := List.length_pos.mpr hcp
    simp only [List.length_zip, List.length_append, List.length_tail,
      List.length_map]
    simp only [List.length_singleton]
    omega

theorem chapterRanges_eq_zip (cp : List Nat) (total : Nat) (hne : cp ≠ [])
    (hb : ∀ x ∈ cp, x ≤ total) :
    chapterRanges cp total = cp.zip (cp.tail ++ [total]) := by
  unfold chapterRanges
  rw [if_neg hne, map_min_of_bounded cp total hb]

/-- C4: for a valid TAF file (header decodes, audio pages parse, chapter
indices within the page count), `split` writes exactly
`max 1 (len chapterPages)` output files; with an empty `chapterPages` the
whole stream is one chapter `[0, total)`, and otherwise chapter `i` covers
`[chapterPages[i], chapterPages[i+1])` with the last chapter extending to
the end of the stream; each output holds the first two pages followed by
its chapter's page range. -/
theorem claim_C4 (fs : FS) (p dir : String) (b : Bytes) (n : Nat)
    (h : TonieHeader) (hfs : fs p = some b)
    (hrh : readHeader b = .ok (n, h))
    (hne : parsePages (b.drop audioRegionOffset) ≠ [])
    (hbd : ∀ x ∈ h.chapterPages,
      x ≤ (parsePages (b.drop audioRegionOffset)).length) :
    ∃ outs, split_to_opus_files fs p dir = .ok outs ∧
      outs.length = max 1 h.chapterPages.length ∧
      (h.chapterPages = [] →
        chapterRanges h.chapterPages
            (parsePages (b.drop audioRegionOffset)).length =
          [(0, (parsePages (b.drop audioRegionOffset)).length)]) ∧
      (h.chapterPages ≠ [] →
        chapterRanges h.chapterPages
            (parsePages (b.drop audioRegionOffset)).length =
          h.chapterPages.zip (h.chapterPages.tail ++
            [(parsePages (b.drop audioRegionOffset)).length])) ∧
      outs = (chapterRanges h.chapterPages
          (parsePages (b.drop audioRegionOffset)).length).mapIdx
        (fun i r => (dir ++ "/" ++ chapterName p i,
          chapterFilePages ((parsePages (b.drop audioRegionOffset)).take 2)
            (((parsePages (b.drop audioRegionOffset)).drop r.1).take
              (r.2 - r.1)))) := by
  unfold split_to_opus_files
  rw [hfs]
  dsimp only
  rw [hrh]
  dsimp only
  rw [if_neg hne]
  refine ⟨_, rfl, ?_, ?_, ?_, rfl⟩
  · rw [List.length_mapIdx]
    exact chapterRanges_length _ _
  · intro hcp
    rw [hcp]
    rfl
  · intro hcp
    exact chapterRanges_eq_zip _ _ hcp hbd

theorem validTaf_drop : validTaf.drop audioRegionOffset = audioPages := by
  unfold validTaf
  exact writeTafFile_drop _ _ (by rw [serialize_validTafHeader]; norm_num)

theorem readHeader_validTaf :
    readHeader validTaf = .ok (4092, validTafHeader) := by
  unfold validTaf
  exact readHeader_writeTafFile _ _ (by rw [serialize_validTafHeader]; norm_num)

theorem claim_C4_witness :
    (exampleFS "good.taf" = some validTaf ∧
      readHeader validTaf = .ok (4092, validTafHeader) ∧
      parsePages (validTaf.drop audioRegionOffset) ≠ [] ∧
      (∀ x ∈ validTafHeader.chapterPages,
        x ≤ (parsePages (validTaf.drop audioRegionOffset)).length)) ∧
    (∃ outs, split_to_opus_files exampleFS "good.taf" "out" = .ok outs ∧
      outs.length = max 1 validTafHeader.chapterPages.length ∧
      (validTafHeader.chapterPages = [] →
        chapterRanges validTafHeader.chapterPages
            (parsePages (validTaf.drop audioRegionOffset)).length =
          [(0, (parsePages (validTaf.drop audioRegionOffset)).length)]) ∧
      (validTafHeader.chapterPages ≠ [] →
        chapterRanges validTafHeader.chapterPages
            (parsePages (validTaf.drop audioRegionOffset)).length =
          validTafHeader.chapterPages.zip (validTafHeader.chapterPages.tail ++
            [(parsePages (validTaf.drop audioRegionOffset)).length])) ∧
      outs = (chapterRanges validTafHeader.chapterPages
          (parsePages (validTaf.drop audioRegionOffset)).length).mapIdx
        (fun i r => ("out" ++ "/" ++ chapterName "good.taf" i,
          chapterFilePages ((parsePages (validTaf.drop audioRegionOffset)).take 2)
            (((parsePages (validTaf.drop audioRegionOffset)).drop r.1).take
              (r.2 - r.1))))) :=
  ⟨⟨rfl, readHeader_validTaf, by rw [validTaf_drop]; decide,
    by rw [validTaf_drop]; decide⟩,
   claim_C4 exampleFS "good.taf" "out" validTaf 4092 validTafHeader rfl
     readHeader_validTaf (by rw [validTaf_drop]; decide)
     (by rw [validTaf_drop]; decide)⟩

theorem audioPages_length : audioPages.length = 124 := by decide

theorem oddTaf_length : oddTaf.length = 4220 := by
  unfold oddTaf
  rw [List.length_append, audioPages_length, List.length_append,
    List.length_append, List.length_replicate]
  simp only [List.length_cons, List.length_nil]

theorem serialize_oddHeader :
    serializeTonieHeader (⟨124, 0, [], []⟩ : TonieHeader) = [0x08, 124] := by
  rw [serializeTonieHeader]
  norm_num
  exact encodeVarint_small 124 (by norm_num)

theorem parseTonieHeader_oddMeta :
    parseTonieHeader [0x08, 124] = some (⟨124, 0, [], []⟩ : TonieHeader) := by
  have h := parseTonieHeader_serialize_append (⟨124, 0, [], []⟩ : TonieHeader)
    [] (Or.inl rfl)
  rw [List.append_nil, serialize_oddHeader] at h
  exact h

theorem oddTaf_drop : oddTaf.drop audioRegionOffset = audioPages := by
  unfold oddTaf audioRegionOffset
  refine List.drop_left' ?_
  rw [List.length_append, List.length_append, List.length_replicate]
  simp only [List.length_cons, List.length_nil]

theorem readHeader_oddTaf :
    readHeader oddTaf = .ok (2, (⟨124, 0, [], []⟩ : TonieHeader)) := by
  unfold readHeader
  rw [show beU32of oddTaf = some 2 from rfl]
  dsimp only
  rw [if_neg (by rw [oddTaf_length]; norm_num)]
  rw [show (oddTaf.drop 4).take 2 = [0x08, 124] from rfl]
  rw [parseTonieHeader_oddMeta]

theorem validateBytes_oddTaf :
    validateBytes oddTaf = .ok (⟨124, 0, [], []⟩ : TonieHeader) := by
  unfold validateBytes
  rw [if_neg (by rw [oddTaf_length]; norm_num)]
  rw [readHeader_oddTaf]
  dsimp only
  rw [if_neg (by rw [oddTaf_length]; norm_num)]
  rw [oddTaf_drop, analyzeAudio_audioPages]

theorem check_odd : check_tonie_file exampleFS "odd.taf" = .ok true := by
  unfold check_tonie_file
  rw [show exampleFS "odd.taf" = some oddTaf from rfl]
  dsimp only
  rw [validateBytes_oddTaf]

/-- C1, counterexample: `oddTaf` is accepted by validation (its audio
region sits at offset 4096 and its `dataLength` is consistent) although its
big-endian length prefix decodes to 2, not 4092: validity does not force
the prefix to 4092. -/
theorem claim_C1_counterexample :
    exampleFS "odd.taf" = some oddTaf ∧
    check_tonie_file exampleFS "odd.taf" = .ok true ∧
    beU32of oddTaf = some 2 ∧ (2 : Nat) ≠ 4092 :=
  ⟨rfl, check_odd, rfl, by norm_num⟩

/-- C1, amended: a file produced by the conforming writer always carries
the length prefix 4092 and its audio region begins exactly at byte offset
4096, independent of how large the encoded metadata is; and every file
accepted by validation has its audio stream read at the constant offset
4096.  (Validation alone does not force the prefix to decode to 4092.) -/
theorem claim_C1 (h : TonieHeader) (audio : Bytes)
    (hlen : (serializeTonieHeader h).length ≤ 4092) :
    beU32of (writeTafFile h audio) = some 4092 ∧
    (writeTafFile h audio).drop audioRegionOffset = audio ∧
    (∀ (fs : FS) (p : String) (b : Bytes), fs p = some b →
      check_tonie_file fs p = .ok true →
      ∃ info, analyzeAudio (b.drop audioRegionOffset) = .ok info) := by
  refine ⟨beU32of_writeTafFile h audio, writeTafFile_drop h audio hlen, ?_⟩
  intro fs p b hfs hok
  obtain ⟨hh, hvb⟩ := check_ok_inv fs p b hfs hok
  obtain ⟨hge, n, info, hrh, hdl, hana⟩ := validateBytes_ok_inv b hh hvb
  exact ⟨info, hana⟩

theorem claim_C1_witness :
    (serializeTonieHeader validTafHeader).length ≤ 4092 ∧
    (beU32of (writeTafFile validTafHeader audioPages) = some 4092 ∧
      (writeTafFile validTafHeader audioPages).drop audioRegionOffset =
        audioPages ∧
      (∀ (fs : FS) (p : String) (b : Bytes), fs p = some b →
        check_tonie_file fs p = .ok true →
        ∃ info, analyzeAudio (b.drop audioRegionOffset) = .ok info)) :=
  ⟨by rw [serialize_validTafHeader]; norm_num,
   claim_C1 validTafHeader audioPages
     (by rw [serialize_validTafHeader]; norm_num)⟩
